import Mathlib

/-!
Shallow embedding of the `coffer` Go package (`src/coffer.go`): a bounded
sequential-access view over a contiguous raw memory range.

Modelling conventions:
* Go `uintptr` values are `Nat` with all arithmetic performed modulo `W = 2^64`.
* Go `int` / `int64` values are `Int`; the conversion `int(u)` from a `uintptr`
  is `toInt` (two's-complement reinterpretation of a 64-bit value).
* Machine memory is a function `Mem : Nat → Nat` from addresses to byte values;
  the cgo `memmove` primitive becomes `storeBytes` / `loadBytes`.
* `os.Error` results are `Option GoError` (`none` is Go's `nil`).
* A Go `panic(e)` inside `Seek` is made explicit by the `SeekOutcome.panicked`
  constructor; ordinary returns use `SeekOutcome.ok`.
-/

namespace Coffer

/-- Address-space modulus for `uintptr` (64-bit). -/
def W : Nat := 2 ^ 64

/-- Machine memory: the byte value stored at each address. -/
def Mem : Type := Nat → Nat

/-- The `os.Error` values this package produces (`nil` is `Option.none`);
`Errno` stands for `os.Errno(GetCErrno())` after a failed `malloc`. -/
inductive GoError
  | EINVAL
  | EOF
  | Errno
deriving DecidableEq

/-- The state of a `PtrCoffer` (src/coffer.go lines 32-36): base pointer,
current pointer, pointer to last element.  All three are `uintptr`s. -/
structure PtrCoffer where
  base : Nat
  seek : Nat
  stop : Nat
deriving DecidableEq

/-- Go conversion `int(u)` / `int64(u)` of a 64-bit `uintptr` value:
two's-complement reinterpretation. -/
def toInt (u : Nat) : Int :=
  if u < 2 ^ 63 then (u : Int) else (u : Int) - (W : Int)

/-- Go `uintptr` subtraction `a - b` (wrapping, operands assumed `< W`). -/
def usub (a b : Nat) : Nat := (a + W - b) % W

/-- Go conversion `uintptr(i)` of an `int` / `int64` value. -/
def uofInt (i : Int) : Nat := (i % (W : Int)).toNat

/-- `PtrCoffer.IsOpen` (line 255): true iff `base != 0`. -/
def IsOpen (p : PtrCoffer) : Bool := decide (p.base ≠ 0)

/-- `PtrCoffer.IsEOF` (line 118): true iff `seek == 0`. -/
def IsEOF (p : PtrCoffer) : Bool := decide (p.seek = 0)

/-- `PtrCoffer.Diff` (line 98): `int(p.stop - p.base)`. -/
def Diff (p : PtrCoffer) : Int := toInt (usub p.stop p.base)

/-- `PtrCoffer.Cap` (line 103): `int(p.stop - p.base) + 1`. -/
def Cap (p : PtrCoffer) : Int := toInt (usub p.stop p.base) + 1

/-- `PtrCoffer.Tell` (line 90): capacity when at EOF, else `int64(seek - base)`. -/
def Tell (p : PtrCoffer) : Int :=
  if IsEOF p then Cap p else toInt (usub p.seek p.base)

/-- `PtrCoffer.Len` (line 108): remaining bytes, `0` when closed or at EOF. -/
def Len (p : PtrCoffer) : Int :=
  if IsOpen p && !(IsEOF p) then toInt (usub p.stop p.seek) + 1 else 0

/-- `PtrCoffer.ContainsOffset` (line 123): `offset >= 0 && offset <= int64(Diff)`. -/
def ContainsOffset (p : PtrCoffer) (offset : Int) : Bool :=
  decide (0 ≤ offset ∧ offset ≤ Diff p)

/-- `NewPtrCoffer` (lines 43-60): rejects a null base or non-positive size with
`os.EINVAL`, otherwise builds `{base, seek := base, stop := base + (sz-1)}`
(with wrapping `uintptr` addition). -/
def NewPtrCoffer (base_ : Nat) (sz : Int) : Option PtrCoffer × Option GoError :=
  if base_ = 0 then (none, some .EINVAL)
  else if sz ≤ 0 then (none, some .EINVAL)
  else (some ⟨base_, base_, (base_ + uofInt (sz - 1)) % W⟩, none)

/-- `PtrCoffer.InitPtrCoffer` (lines 62-82): like `NewPtrCoffer` but in place,
additionally failing when the receiver is already open. -/
def InitPtrCoffer (p : PtrCoffer) (base_ : Nat) (sz : Int) :
    Option GoError × PtrCoffer :=
  if base_ = 0 then (some .EINVAL, p)
  else if sz ≤ 0 then (some .EINVAL, p)
  else if IsOpen p then (some .EINVAL, p)
  else (none, ⟨base_, base_, (base_ + uofInt (sz - 1)) % W⟩)

/-- `PtrCoffer.SeekPos` (lines 154-167): resolve `(offset, whence)` into an
absolute offset; unknown `whence` yields `(Tell, os.EINVAL)`. -/
def SeekPos (p : PtrCoffer) (offset : Int) (whence : Int) : Int × Option GoError :=
  if whence = 0 then (offset, none)
  else if whence = 1 then (Tell p + offset, none)
  else if whence = 2 then (Diff p + offset, none)
  else (Tell p, some .EINVAL)

/-- Outcome of `PtrCoffer.Seek`: an ordinary return (value, error, state) or a
Go `panic` (raised value, state at the moment of the panic). -/
inductive SeekOutcome
  | ok (ret : Int) (err : Option GoError) (coffer : PtrCoffer)
  | panicked (e : GoError) (coffer : PtrCoffer)
deriving DecidableEq

/-- The coffer state carried by a `SeekOutcome`. -/
def SeekOutcome.state : SeekOutcome → PtrCoffer
  | .ok _ _ c => c
  | .panicked _ c => c

/-- `PtrCoffer.Seek` (lines 173-184): fails with `os.EINVAL` when closed or on
a bad `whence`; calls `EnsureContainsOffset` (lines 128-134), which PANICS with
`os.EINVAL` when the resolved offset is out of range; otherwise moves the
cursor to `base + uintptr(ret)` and returns `(ret, nil)`. -/
def Seek (p : PtrCoffer) (offset : Int) (whence : Int) : SeekOutcome :=
  if !(IsOpen p) then .ok (toInt p.seek) (some .EINVAL) p
  else
    match SeekPos p offset whence with
    | (ret, some e) => .ok ret (some e) p
    | (ret, none) =>
      if ContainsOffset p ret then
        .ok ret none { p with seek := (p.base + uofInt ret) % W }
      else .panicked .EINVAL p

/-- Result of a `Read` or `Write` call: byte count, error, updated coffer. -/
structure RWResult where
  n : Int
  err : Option GoError
  coffer : PtrCoffer
deriving DecidableEq

/-- `memmove(dst, seek, n)` towards a Go buffer: the `n` bytes of memory
starting at address `src` (addresses taken mod `W`). -/
def loadBytes (m : Mem) (src : Nat) : Nat → List Nat
  | 0 => []
  | n + 1 => m (src % W) :: loadBytes m (src + 1) n

/-- `memmove(seek, src, len(buf))` from a Go buffer: store the bytes of `buf`
into memory starting at address `dst` (addresses taken mod `W`). -/
def storeBytes (m : Mem) (dst : Nat) : List Nat → Mem
  | [] => m
  | b :: rest => storeBytes (Function.update m (dst % W) b) (dst + 1) rest

/-- `PtrCoffer.Read` (lines 186-217): `os.EOF` with 0 bytes when closed or at
EOF; `os.EINVAL` on an empty destination or empty remainder; otherwise copies
`min(srcLen, dstLen)` bytes from the cursor, advancing it, and marks EOF (seek
:= 0) with `os.EOF` exactly when the range is exhausted.  The returned list is
the bytes placed into the destination buffer. -/
def Read (p : PtrCoffer) (m : Mem) (dstLen : Nat) : RWResult × List Nat :=
  if !(IsOpen p) || IsEOF p then (⟨0, some .EOF, p⟩, [])
  else if dstLen = 0 then (⟨0, some .EINVAL, p⟩, [])
  else if Len p = 0 then (⟨0, some .EINVAL, p⟩, [])
  else if Len p > (dstLen : Int) then
    (⟨(dstLen : Int), none, { p with seek := (p.seek + dstLen) % W }⟩,
      loadBytes m p.seek dstLen)
  else
    (⟨Len p, some .EOF, { p with seek := 0 }⟩, loadBytes m p.seek (Len p).toNat)

/-- `PtrCoffer.Write` (lines 220-253): `os.EOF` with 0 bytes when closed or at
EOF; `os.EINVAL` on an empty source or empty remainder; otherwise copies
`min(srcLen, dstLen)` bytes to the cursor, advancing it, and marks EOF (seek :=
0) with `os.EOF` exactly when the range is exhausted (including `srcLen ==
dstLen`).  Never extends the range. -/
def Write (p : PtrCoffer) (m : Mem) (src : List Nat) : RWResult × Mem :=
  if !(IsOpen p) || IsEOF p then (⟨0, some .EOF, p⟩, m)
  else if (src.length : Int) = 0 then (⟨0, some .EINVAL, p⟩, m)
  else if Len p = 0 then (⟨0, some .EINVAL, p⟩, m)
  else if (src.length : Int) ≥ Len p then
    (⟨Len p, some .EOF, { p with seek := 0 }⟩,
      storeBytes m p.seek (src.take (Len p).toNat))
  else
    (⟨(src.length : Int), none, { p with seek := (p.seek + src.length) % W }⟩,
      storeBytes m p.seek src)

/-- `PtrCoffer.Close` (lines 264-270): zeroes all fields, returns `nil`. -/
def Close (p : PtrCoffer) : Option GoError × PtrCoffer := (none, ⟨0, 0, 0⟩)

/-- `PtrCoffer.GetBasePtr` (line 273): returns `p.base`. -/
def GetBasePtr (p : PtrCoffer) : Nat := p.base

/-- `PtrCoffer.GetSeekPtr` (line 278): the body is `return p.base`. -/
def GetSeekPtr (p : PtrCoffer) : Nat := p.base

/-- `PtrCoffer.GetStopPtr` (line 283): the body is `return p.base`. -/
def GetStopPtr (p : PtrCoffer) : Nat := p.base

/-- `NewMemCoffer` (lines 296-313).  The `C.malloc` call is environmental, so
its returned address is the explicit parameter `mallocRet` (`0` models a null
return).  Note the code only rejects `sz < 0`. -/
def NewMemCoffer (mallocRet : Nat) (sz : Int) : Option PtrCoffer × Option GoError :=
  if sz < 0 then (none, some .EINVAL)
  else if mallocRet = 0 then (none, some .Errno)
  else (some ⟨mallocRet, mallocRet, (mallocRet + uofInt (sz - 1)) % W⟩, none)

/-- `MemCoffer.Close` (lines 315-328): if `IsEOF()` (i.e. `seek == 0`) it
returns `os.EOF` immediately, freeing nothing; otherwise it frees `base` and
zeroes all fields.  The `Bool` component records whether `C.free` was called. -/
def MemClose (p : PtrCoffer) : Option GoError × PtrCoffer × Bool :=
  if IsEOF p then (some .EOF, p, false)
  else (none, ⟨0, 0, 0⟩, true)

/-! ### Arithmetic helper lemmas -/

lemma W_pos : 0 < W := by unfold W; positivity

lemma two_pow_63_lt_W : 2 ^ 63 < W := by unfold W; norm_num

lemma toInt_of_lt {u : Nat} (h : u < 2 ^ 63) : toInt u = (u : Int) := by
  unfold toInt; rw [if_pos h]

lemma usub_of_le {a b : Nat} (hba : b ≤ a) (h : a - b < W) : usub a b = a - b := by
  unfold usub
  rw [show a + W - b = a - b + W by omega, Nat.add_mod_right, Nat.mod_eq_of_lt h]

lemma usub_mod_add {base : Nat} (t : Nat) (hb : base ≤ W) :
    usub ((base + t) % W) base = t % W := by
  unfold usub
  rw [show (base + t) % W + W - base = (base + t) % W + (W - base) by omega,
    Nat.mod_add_mod, show base + t + (W - base) = t + W by omega,
    Nat.add_mod_right]

lemma uofInt_of_nonneg {i : Int} (h0 : 0 ≤ i) (h1 : i < (W : Int)) :
    uofInt i = i.toNat := by
  unfold uofInt; rw [Int.emod_eq_of_lt h0 h1]

lemma Len_open {p : PtrCoffer} (h1 : IsOpen p = true) (h2 : IsEOF p = false)
    (h3 : p.seek ≤ p.stop) (h4 : p.stop - p.seek < 2 ^ 63) :
    Len p = ((p.stop - p.seek : Nat) : Int) + 1 := by
  unfold Len
  rw [h1, h2]
  simp only [Bool.not_false, Bool.and_self, if_true]
  rw [usub_of_le h3 (h4.trans two_pow_63_lt_W), toInt_of_lt h4]

lemma two_pow_63_lt_W_int : (2 ^ 63 : Int) < (W : Int) := by
  exact_mod_cast two_pow_63_lt_W

/-! ### Memory copy lemmas -/

lemma storeBytes_eq_of_notin (bs : List Nat) :
    ∀ (a : Nat) (m : Mem) (x : Nat),
      (∀ i, i < bs.length → (a + i) % W ≠ x) → storeBytes m a bs x = m x := by
  induction bs with
  | nil => intro a m x _; rfl
  | cons b rest ih =>
    intro a m x h
    show storeBytes (Function.update m (a % W) b) (a + 1) rest x = m x
    rw [ih (a + 1) _ x fun i hi => by
      have := h (i + 1) (by simpa using Nat.succ_lt_succ hi)
      rwa [show a + (i + 1) = a + 1 + i by omega] at this]
    exact Function.update_noteq
      (fun hx => h 0 (by simp) (by simpa using hx.symm)) _ _

lemma loadBytes_storeBytes (bs : List Nat) :
    ∀ (a : Nat) (m : Mem), a + bs.length ≤ W →
      loadBytes (storeBytes m a bs) a bs.length = bs := by
  induction bs with
  | nil => intro a m _; rfl
  | cons b rest ih =>
    intro a m h
    have hlen : (b :: rest).length = rest.length + 1 := by simp
    have haW : a < W := by rw [hlen] at h; omega
    show loadBytes (storeBytes (Function.update m (a % W) b) (a + 1) rest)
      a (rest.length + 1) = b :: rest
    rw [loadBytes]
    congr 1
    · rw [storeBytes_eq_of_notin rest (a + 1) _ (a % W) fun i hi => by
        rw [Nat.mod_eq_of_lt haW, Nat.mod_eq_of_lt (by rw [hlen] at h; omega)]
        omega]
      rw [Nat.mod_eq_of_lt haW, Function.update_same]
    · exact ih (a + 1) _ (by rw [hlen] at h; omega)

/-! ### Field preservation lemmas -/

lemma Read_preserves_bounds (p : PtrCoffer) (m : Mem) (d : Nat) :
    (Read p m d).1.coffer.base = p.base ∧
    (Read p m d).1.coffer.stop = p.stop := by
  constructor <;> (unfold Read; split_ifs <;> rfl)

lemma Write_preserves_bounds (p : PtrCoffer) (m : Mem) (src : List Nat) :
    (Write p m src).1.coffer.base = p.base ∧
    (Write p m src).1.coffer.stop = p.stop := by
  constructor <;> (unfold Write; split_ifs <;> rfl)

lemma Seek_preserves_bounds (p : PtrCoffer) (off wh : Int) :
    (Seek p off wh).state.base = p.base ∧
    (Seek p off wh).state.stop = p.stop := by
  constructor <;> (unfold Seek; split_ifs <;> (try split) <;> (try split_ifs) <;> rfl)

/-- A `Seek(0, FromStart)` on an open, well-bounded state succeeds and puts
the cursor back at `base` (clearing EOF). -/
lemma Seek_zero_start (c : PtrCoffer) (hb : c.base ≠ 0) (hbW : c.base < W)
    (hdiff : 0 ≤ Diff c) :
    Seek c 0 0 = .ok 0 none { c with seek := c.base } := by
  unfold Seek
  rw [show IsOpen c = true from by simp [IsOpen, hb]]
  simp only [Bool.not_true, Bool.false_eq_true, if_false]
  have hsp : SeekPos c 0 0 = (0, none) := by unfold SeekPos; rw [if_pos rfl]
  rw [hsp]
  show (if ContainsOffset c 0 = true then
      SeekOutcome.ok 0 none { c with seek := (c.base + uofInt 0) % W }
    else SeekOutcome.panicked GoError.EINVAL c) =
    SeekOutcome.ok 0 none { c with seek := c.base }
  rw [if_pos (by simp [ContainsOffset]; exact hdiff)]
  have h0 : uofInt 0 = 0 := by simp [uofInt]
  rw [h0, Nat.add_zero, Nat.mod_eq_of_lt hbW]

end Coffer

namespace Coffer

/-! ### Claim theorems -/

/-- Claim C9: for every `PtrCoffer` in every state, `GetSeekPtr` and
`GetStopPtr` both return the same value as `GetBasePtr` (the stored `base`
field), not the current cursor or the end-of-range address. -/
theorem get_seek_stop_ptr_return_base (p : PtrCoffer) :
    GetSeekPtr p = GetBasePtr p ∧ GetStopPtr p = GetBasePtr p :=
  ⟨rfl, rfl⟩

/-- Claim C10: after `Close()` on any `PtrCoffer`, `IsEOF()` returns `true`
and `Tell()` returns `1` (the capacity of the zeroed instance computes to
`1`), so a closed instance is indistinguishable from an open instance at EOF
through `IsEOF()` alone. -/
theorem close_then_iseof_tell_one (p : PtrCoffer) :
    IsEOF (Close p).2 = true ∧ Tell (Close p).2 = 1 := by
  show IsEOF ⟨0, 0, 0⟩ = true ∧ Tell ⟨0, 0, 0⟩ = 1
  decide

/-- Claim C5: for every range that is closed or whose EOF flag is set, `Read`
and `Write` each return zero bytes moved with status `EndOfRange` (`os.EOF`),
and change no field of the range, regardless of the caller-supplied buffer
length. -/
theorem read_write_after_eof_or_close_noop (p : PtrCoffer) (m : Mem)
    (dstLen : Nat) (src : List Nat) (h : IsOpen p = false ∨ IsEOF p = true) :
    Read p m dstLen = (⟨0, some .EOF, p⟩, []) ∧
    Write p m src = (⟨0, some .EOF, p⟩, m) := by
  rcases h with h | h <;> constructor <;> simp [Read, Write, h]

/-- Witness for C5 at the closed instance `⟨0, 0, 0⟩`. -/
theorem read_write_after_eof_or_close_noop_witness :
    Read ⟨0, 0, 0⟩ (fun _ => 0) 3 = (⟨0, some .EOF, ⟨0, 0, 0⟩⟩, []) ∧
    Write ⟨0, 0, 0⟩ (fun _ => 0) [7] = (⟨0, some .EOF, ⟨0, 0, 0⟩⟩, fun _ => 0) :=
  read_write_after_eof_or_close_noop ⟨0, 0, 0⟩ (fun _ => 0) 3 [7]
    (Or.inl (by decide))

/-- Claim C1 (code bug evaluation): on the open range built by
`NewPtrCoffer 1000 10` (capacity 10), both `Seek(-1, FromStart)` and
`Seek(Capacity(), FromStart)` PANIC with `os.EINVAL` via
`EnsureContainsOffset` instead of returning the error, contradicting `Seek`'s
own doc comment (lines 169-172). -/
theorem seek_out_of_range_panics :
    (NewPtrCoffer 1000 10).1 = some ⟨1000, 1000, 1009⟩ ∧
    Cap ⟨1000, 1000, 1009⟩ = 10 ∧
    Seek ⟨1000, 1000, 1009⟩ (-1) 0 = .panicked .EINVAL ⟨1000, 1000, 1009⟩ ∧
    Seek ⟨1000, 1000, 1009⟩ 10 0 = .panicked .EINVAL ⟨1000, 1000, 1009⟩ := by
  refine ⟨by decide, by decide, by decide, by decide⟩

/-- Claim C2 (code bug evaluation): a `MemCoffer` of size 1 allocated at
address 1000, after a `Read` of 1 byte that sets EOF (`seek == 0`), is still
open (`base != 0`), yet `MemCoffer.Close` observes `IsEOF()` and returns
`os.EOF` WITHOUT calling `C.free` (third component `false`) and without
zeroing the fields — the backing allocation is never released. -/
theorem memclose_at_eof_skips_free :
    (NewMemCoffer 1000 1).1 = some ⟨1000, 1000, 1000⟩ ∧
    (Read ⟨1000, 1000, 1000⟩ (fun _ => 0) 1).1 = ⟨1, some .EOF, ⟨1000, 0, 1000⟩⟩ ∧
    IsOpen ⟨1000, 0, 1000⟩ = true ∧
    MemClose ⟨1000, 0, 1000⟩ = (some .EOF, ⟨1000, 0, 1000⟩, false) := by
  refine ⟨by decide, by decide, by decide, by decide⟩

/-- Claim C7: for every non-null base and every size with `0 < size < 2^63`,
`NewPtrCoffer` succeeds with `nil` error, `Capacity()` of the new instance
equals the size, the cursor is at the start (`Tell() == 0`) with EOF clear;
for a null base or non-positive size it fails with `os.EINVAL` and produces no
instance. -/
theorem open_capacity_tell (base : Nat) (sz : Int) (hbW : base < W)
    (hsz : sz < 2 ^ 63) :
    (base ≠ 0 → 0 < sz →
      NewPtrCoffer base sz =
        (some ⟨base, base, (base + uofInt (sz - 1)) % W⟩, none) ∧
      Cap ⟨base, base, (base + uofInt (sz - 1)) % W⟩ = sz ∧
      Tell ⟨base, base, (base + uofInt (sz - 1)) % W⟩ = 0 ∧
      IsEOF ⟨base, base, (base + uofInt (sz - 1)) % W⟩ = false) ∧
    (base = 0 ∨ sz ≤ 0 → NewPtrCoffer base sz = (none, some .EINVAL)) := by
  constructor
  · intro hb hs
    have ht : uofInt (sz - 1) = (sz - 1).toNat :=
      uofInt_of_nonneg (by omega) (by have := two_pow_63_lt_W_int; omega)
    have htlt : (sz - 1).toNat < 2 ^ 63 := by omega
    have hEOF : IsEOF ⟨base, base, (base + uofInt (sz - 1)) % W⟩ = false := by
      unfold IsEOF; simp [hb]
    refine ⟨?_, ?_, ?_, hEOF⟩
    · unfold NewPtrCoffer
      rw [if_neg hb, if_neg (by omega)]
    · show toInt (usub ((base + uofInt (sz - 1)) % W) base) + 1 = sz
      rw [ht, usub_mod_add _ hbW.le,
        Nat.mod_eq_of_lt (htlt.trans two_pow_63_lt_W), toInt_of_lt htlt]
      omega
    · unfold Tell
      rw [hEOF]
      simp only [Bool.false_eq_true, if_false]
      show toInt (usub base base) = 0
      rw [usub_of_le le_rfl (by omega), Nat.sub_self,
        toInt_of_lt (by positivity)]
      rfl
  · intro h
    unfold NewPtrCoffer
    by_cases hb0 : base = 0
    · rw [if_pos hb0]
    · rw [if_neg hb0, if_pos (by omega)]

/-- Witness for C7: `NewPtrCoffer 1000 10` succeeds with capacity 10, cursor
at 0, EOF clear; `NewPtrCoffer 0 5` fails with `os.EINVAL`. -/
theorem open_capacity_tell_witness :
    (NewPtrCoffer 1000 10 =
        (some ⟨1000, 1000, (1000 + uofInt (10 - 1)) % W⟩, none) ∧
      Cap ⟨1000, 1000, (1000 + uofInt (10 - 1)) % W⟩ = 10 ∧
      Tell ⟨1000, 1000, (1000 + uofInt (10 - 1)) % W⟩ = 0 ∧
      IsEOF ⟨1000, 1000, (1000 + uofInt (10 - 1)) % W⟩ = false) ∧
    NewPtrCoffer 0 5 = (none, some .EINVAL) :=
  ⟨(open_capacity_tell 1000 10 (by decide) (by decide)).1 (by decide)
      (by decide),
    (open_capacity_tell 0 5 (by decide) (by decide)).2 (Or.inl rfl)⟩

/-- Claim C3: for every open, non-EOF range (in a reachable state:
`seek ≤ stop`, span below `2^63`) and every buffer whose length exactly equals
`Remaining()` (= `Len`), `Read` and `Write` report `os.EOF` together with a
moved-byte count equal to that length, not a plain success without the EOF
flag. -/
theorem read_write_exact_remaining_eof (p : PtrCoffer) (m : Mem) (k : Nat)
    (src : List Nat) (h1 : IsOpen p = true) (h2 : IsEOF p = false)
    (h3 : p.seek ≤ p.stop) (h4 : p.stop - p.seek < 2 ^ 63)
    (hk : (k : Int) = Len p) (hs : (src.length : Int) = Len p) :
    (Read p m k).1.n = (k : Int) ∧ (Read p m k).1.err = some .EOF ∧
    (Write p m src).1.n = (src.length : Int) ∧
    (Write p m src).1.err = some .EOF := by
  have hLen := Len_open h1 h2 h3 h4
  have hpos : 0 < Len p := by rw [hLen]; positivity
  have hk0 : k ≠ 0 := by omega
  have hr : Read p m k =
      (⟨Len p, some .EOF, { p with seek := 0 }⟩,
        loadBytes m p.seek (Len p).toNat) := by
    unfold Read
    rw [h1, h2]
    simp only [Bool.not_true, Bool.false_or, Bool.false_eq_true, if_false]
    rw [if_neg hk0, if_neg (by omega), if_neg (by omega)]
  have hw : (Write p m src).1 = ⟨Len p, some .EOF, { p with seek := 0 }⟩ := by
    unfold Write
    rw [h1, h2]
    simp only [Bool.not_true, Bool.false_or, Bool.false_eq_true, if_false]
    rw [if_neg (by omega), if_neg (by omega), if_pos (by omega)]
  rw [hr, hw]
  refine ⟨hk.symm, rfl, hs.symm, rfl⟩

/-- Witness for C3: a capacity-5 range read and written with length-5
buffers reports `(5, os.EOF)` on both operations. -/
theorem read_write_exact_remaining_eof_witness :
    (Read ⟨1000, 1000, 1004⟩ (fun _ => 0) 5).1.n = (5 : Int) ∧
    (Read ⟨1000, 1000, 1004⟩ (fun _ => 0) 5).1.err = some .EOF ∧
    (Write ⟨1000, 1000, 1004⟩ (fun _ => 0) [9, 9, 9, 9, 9]).1.n =
      ((9 : Nat) :: [9, 9, 9, 9]).length ∧
    (Write ⟨1000, 1000, 1004⟩ (fun _ => 0) [9, 9, 9, 9, 9]).1.err =
      some .EOF :=
  read_write_exact_remaining_eof ⟨1000, 1000, 1004⟩ (fun _ => 0) 5
    [9, 9, 9, 9, 9] (by decide) (by decide) (by decide) (by decide)
    (by decide) (by decide)

/-- Claim C4 (counterexample): `NewPtrCoffer` accepts the non-null base
`2^64 - 1` with size `2`, and the wrapping `uintptr` addition computes
`stop = 0`, producing an open instance that violates `base <= stop` — the
bound arithmetic DOES wrap around the address width without any check. -/
theorem new_ptr_coffer_wrap_cex :
    NewPtrCoffer (2 ^ 64 - 1) 2 =
      (some ⟨2 ^ 64 - 1, 2 ^ 64 - 1, 0⟩, none) ∧
    ¬((⟨2 ^ 64 - 1, 2 ^ 64 - 1, 0⟩ : PtrCoffer).base ≤
      (⟨2 ^ 64 - 1, 2 ^ 64 - 1, 0⟩ : PtrCoffer).stop) := by
  refine ⟨by decide, by decide⟩

/-- Claim C4 (amended): for every non-null base and positive size whose span
`base + size - 1` does not wrap around the address width, the constructed
instance satisfies `base != 0` and `base <= stop`, and `Read`, `Write` and
`Seek` (in every outcome, panic included) preserve the `base` and `stop`
fields, so the invariant is preserved while the instance stays open. -/
theorem open_invariant_no_wrap (base : Nat) (sz : Int) (hb : base ≠ 0)
    (hs : 0 < sz) (hsz : sz < 2 ^ 63) (hnw : base + (sz - 1).toNat < W) :
    (∀ p, (NewPtrCoffer base sz).1 = some p → p.base ≠ 0 ∧ p.base ≤ p.stop) ∧
    (∀ (p : PtrCoffer) (m : Mem) (dstLen : Nat) (src : List Nat) (off wh : Int),
      (Read p m dstLen).1.coffer.base = p.base ∧
      (Read p m dstLen).1.coffer.stop = p.stop ∧
      (Write p m src).1.coffer.base = p.base ∧
      (Write p m src).1.coffer.stop = p.stop ∧
      (Seek p off wh).state.base = p.base ∧
      (Seek p off wh).state.stop = p.stop) := by
  constructor
  · intro p hp
    have ht : uofInt (sz - 1) = (sz - 1).toNat :=
      uofInt_of_nonneg (by omega) (by have := two_pow_63_lt_W_int; omega)
    unfold NewPtrCoffer at hp
    rw [if_neg hb, if_neg (by omega), ht, Nat.mod_eq_of_lt hnw] at hp
    simp only [Option.some.injEq] at hp
    subst hp
    refine ⟨hb, ?_⟩
    show base ≤ base + (sz - 1).toNat
    omega
  · intro p m dstLen src off wh
    exact ⟨(Read_preserves_bounds p m dstLen).1,
      (Read_preserves_bounds p m dstLen).2,
      (Write_preserves_bounds p m src).1,
      (Write_preserves_bounds p m src).2,
      (Seek_preserves_bounds p off wh).1,
      (Seek_preserves_bounds p off wh).2⟩

/-- Witness for C4 (amended) at `NewPtrCoffer 1000 10`. -/
theorem open_invariant_no_wrap_witness :
    (⟨1000, 1000, 1009⟩ : PtrCoffer).base ≠ 0 ∧
    (⟨1000, 1000, 1009⟩ : PtrCoffer).base ≤
      (⟨1000, 1000, 1009⟩ : PtrCoffer).stop :=
  (open_invariant_no_wrap 1000 10 (by decide) (by decide) (by decide)
      (by decide)).1 ⟨1000, 1000, 1009⟩ (by decide)

/-- Claim C6: `Write` never extends the range — on every open, non-EOF range
(in a reachable state) it moves `min(Remaining(), len(src))` bytes; and in the
spec scenario `Open(base, 10)`, a 5-byte write returns `(5, nil)` with the
cursor at offset 5, a following 6-byte write returns `(5, os.EOF)`, and a
subsequent 1-byte write returns `(0, os.EOF)`. -/
theorem write_truncates_min (p : PtrCoffer) (m : Mem) (src : List Nat)
    (h1 : IsOpen p = true) (h2 : IsEOF p = false)
    (h3 : p.seek ≤ p.stop) (h4 : p.stop - p.seek < 2 ^ 63) :
    (Write p m src).1.n = min (Len p) (src.length : Int) ∧
    ((NewPtrCoffer 1000 10).1 = some ⟨1000, 1000, 1009⟩ ∧
      (Write ⟨1000, 1000, 1009⟩ (fun _ => 0) [1, 2, 3, 4, 5]).1 =
        ⟨5, none, ⟨1000, 1005, 1009⟩⟩ ∧
      Tell ⟨1000, 1005, 1009⟩ = 5 ∧
      (Write ⟨1000, 1005, 1009⟩
          (Write ⟨1000, 1000, 1009⟩ (fun _ => 0) [1, 2, 3, 4, 5]).2
          [6, 7, 8, 9, 10, 11]).1 = ⟨5, some .EOF, ⟨1000, 0, 1009⟩⟩ ∧
      (Write ⟨1000, 0, 1009⟩
          (Write ⟨1000, 1005, 1009⟩
            (Write ⟨1000, 1000, 1009⟩ (fun _ => 0) [1, 2, 3, 4, 5]).2
            [6, 7, 8, 9, 10, 11]).2 [42]).1 =
        ⟨0, some .EOF, ⟨1000, 0, 1009⟩⟩) := by
  have hLen := Len_open h1 h2 h3 h4
  have hpos : 0 < Len p := by rw [hLen]; positivity
  constructor
  · by_cases hs0 : (src.length : Int) = 0
    · unfold Write
      rw [h1, h2]
      simp only [Bool.not_true, Bool.false_or, Bool.false_eq_true, if_false]
      rw [if_pos hs0]
      show (0 : Int) = min (Len p) (src.length : Int)
      omega
    · by_cases hge : (src.length : Int) ≥ Len p
      · unfold Write
        rw [h1, h2]
        simp only [Bool.not_true, Bool.false_or, Bool.false_eq_true, if_false]
        rw [if_neg hs0, if_neg (by omega), if_pos hge]
        show Len p = min (Len p) (src.length : Int)
        omega
      · unfold Write
        rw [h1, h2]
        simp only [Bool.not_true, Bool.false_or, Bool.false_eq_true, if_false]
        rw [if_neg hs0, if_neg (by omega), if_neg hge]
        show (src.length : Int) = min (Len p) (src.length : Int)
        omega
  · refine ⟨by decide, by decide, by decide, by decide, by decide⟩

/-- Witness for C6: a 3-byte write into a capacity-10 range moves
`min(10, 3) = 3` bytes. -/
theorem write_truncates_min_witness :
    (Write ⟨1000, 1000, 1009⟩ (fun _ => 0) [1, 2, 3]).1.n =
      min (Len ⟨1000, 1000, 1009⟩) (([1, 2, 3] : List Nat).length : Int) :=
  (write_truncates_min ⟨1000, 1000, 1009⟩ (fun _ => 0) [1, 2, 3] (by decide)
    (by decide) (by decide) (by decide)).1

/-- Claim C8 (round trip): on a freshly opened range of size `sz` (span not
wrapping the address width), writing `k` bytes (`1 ≤ k ≤ sz`) from the start,
then seeking back to the start with `Seek(0, FromStart)` — which succeeds and
clears EOF — then reading `k` bytes yields exactly the `k` bytes written. -/
theorem write_seek_read_roundtrip (base sz k : Nat) (bs : List Nat) (m : Mem)
    (p : PtrCoffer) (hb : base ≠ 0) (hnw : base + sz ≤ W) (hk0 : 0 < k)
    (hks : k ≤ sz) (hsz : sz < 2 ^ 63) (hlen : bs.length = k)
    (hp : (NewPtrCoffer base (sz : Int)).1 = some p) :
    Seek (Write p m bs).1.coffer 0 0 = .ok 0 none { p with seek := p.base } ∧
    (Read { p with seek := p.base } (Write p m bs).2 k).2 = bs := by
  have ht : uofInt ((sz : Int) - 1) = sz - 1 := by
    rw [uofInt_of_nonneg (by omega) (by have := two_pow_63_lt_W_int; omega)]
    omega
  unfold NewPtrCoffer at hp
  rw [if_neg hb, if_neg (by omega), ht, Nat.mod_eq_of_lt (by omega)] at hp
  simp only [Option.some.injEq] at hp
  subst hp
  show Seek (Write ⟨base, base, base + (sz - 1)⟩ m bs).1.coffer 0 0 =
      .ok 0 none ⟨base, base, base + (sz - 1)⟩ ∧
    (Read ⟨base, base, base + (sz - 1)⟩
      (Write ⟨base, base, base + (sz - 1)⟩ m bs).2 k).2 = bs
  have h1 : IsOpen ⟨base, base, base + (sz - 1)⟩ = true := by simp [IsOpen, hb]
  have h2 : IsEOF ⟨base, base, base + (sz - 1)⟩ = false := by simp [IsEOF, hb]
  have hLen : Len ⟨base, base, base + (sz - 1)⟩ = (sz : Int) := by
    rw [Len_open h1 h2 (by show base ≤ base + (sz - 1); omega)
      (by show base + (sz - 1) - base < 2 ^ 63; omega)]
    show ((base + (sz - 1) - base : Nat) : Int) + 1 = (sz : Int)
    omega
  have hbW : base < W := by omega
  by_cases hcase : (bs.length : Int) ≥ Len ⟨base, base, base + (sz - 1)⟩
  · have hksz : k = sz := by rw [hLen] at hcase; omega
    have hwrite : Write ⟨base, base, base + (sz - 1)⟩ m bs =
        (⟨Len ⟨base, base, base + (sz - 1)⟩, some .EOF,
            ⟨base, 0, base + (sz - 1)⟩⟩,
          storeBytes m base
            (bs.take (Len ⟨base, base, base + (sz - 1)⟩).toNat)) := by
      unfold Write
      rw [h1, h2]
      simp only [Bool.not_true, Bool.false_or, Bool.false_eq_true, if_false]
      rw [if_neg (by omega), if_neg (by rw [hLen]; omega), if_pos hcase]
    have htake : bs.take (Len ⟨base, base, base + (sz - 1)⟩).toNat = bs := by
      apply List.take_of_length_le
      rw [hLen]
      omega
    rw [hwrite, htake]
    constructor
    · have hd : (0 : Int) ≤ Diff ⟨base, 0, base + (sz - 1)⟩ := by
        show (0 : Int) ≤ toInt (usub (base + (sz - 1)) base)
        rw [usub_of_le (by omega) (by omega), toInt_of_lt (by omega)]
        omega
      exact Seek_zero_start ⟨base, 0, base + (sz - 1)⟩ hb hbW hd
    · unfold Read
      rw [h1, h2]
      simp only [Bool.not_true, Bool.false_or, Bool.false_eq_true, if_false]
      rw [if_neg (by omega), if_neg (by rw [hLen]; omega),
        if_neg (by rw [hLen]; omega)]
      show loadBytes (storeBytes m base bs) base
        (Len ⟨base, base, base + (sz - 1)⟩).toNat = bs
      rw [hLen, show ((sz : Int)).toNat = bs.length from by omega]
      exact loadBytes_storeBytes bs base m (by omega)
  · have hklt : k < sz := by rw [hLen] at hcase; omega
    have hwrite : Write ⟨base, base, base + (sz - 1)⟩ m bs =
        (⟨(bs.length : Int), none,
            ⟨base, (base + bs.length) % W, base + (sz - 1)⟩⟩,
          storeBytes m base bs) := by
      unfold Write
      rw [h1, h2]
      simp only [Bool.not_true, Bool.false_or, Bool.false_eq_true, if_false]
      rw [if_neg (by omega), if_neg (by rw [hLen]; omega), if_neg hcase]
    rw [hwrite]
    constructor
    · have hd : (0 : Int) ≤
          Diff ⟨base, (base + bs.length) % W, base + (sz - 1)⟩ := by
        show (0 : Int) ≤ toInt (usub (base + (sz - 1)) base)
        rw [usub_of_le (by omega) (by omega), toInt_of_lt (by omega)]
        omega
      exact Seek_zero_start ⟨base, (base + bs.length) % W, base + (sz - 1)⟩
        hb hbW hd
    · unfold Read
      rw [h1, h2]
      simp only [Bool.not_true, Bool.false_or, Bool.false_eq_true, if_false]
      rw [if_neg (by omega), if_neg (by rw [hLen]; omega),
        if_pos (by rw [hLen]; omega)]
      show loadBytes (storeBytes m base bs) base k = bs
      rw [← hlen]
      exact loadBytes_storeBytes bs base m (by omega)

/-- Witness for C8: write 10 bytes into a fresh capacity-10 range, seek back
to the start, read 10 bytes, and recover exactly the written bytes. -/
theorem write_seek_read_roundtrip_witness :
    Seek (Write ⟨1000, 1000, 1009⟩ (fun _ => 0)
        [1, 2, 3, 4, 5, 6, 7, 8, 9, 10]).1.coffer 0 0 =
      .ok 0 none ⟨1000, 1000, 1009⟩ ∧
    (Read ⟨1000, 1000, 1009⟩
        (Write ⟨1000, 1000, 1009⟩ (fun _ => 0)
          [1, 2, 3, 4, 5, 6, 7, 8, 9, 10]).2 10).2 =
      [1, 2, 3, 4, 5, 6, 7, 8, 9, 10] :=
  write_seek_read_roundtrip 1000 10 10 [1, 2, 3, 4, 5, 6, 7, 8, 9, 10]
    (fun _ => 0) ⟨1000, 1000, 1009⟩ (by decide) (by decide) (by decide)
    (by decide) (by decide) (by decide) (by decide)

end Coffer
